import Mathlib

/-!
Shallow embedding of `scripts/separate-snippets.ts` (snippet extraction
engine).  Lines are modelled as `String`, files as `List String`.  The
JavaScript regexes are modelled as explicit scanners over `List Char`
with leftmost-match semantics; JS `\s` and `trim` whitespace is modelled
by `Char.isWhitespace`.  JS objects (`config.map`) are modelled as
association lists in insertion order.  `fs`/`path` I/O glue is modelled
only as the pure path-string computation from `main`.
-/

namespace SeparateSnippets

/-- JS whitespace class (`\s`, `trim`), modelled by Lean whitespace. -/
def jsWS (c : Char) : Bool := c.isWhitespace

/-- Character class `[A-Za-z_]` of RE_START_SNIPPET / RE_END_SNIPPET names. -/
def nameChar (c : Char) : Bool := c.isAlpha || c = '_'

/-- Character class `[A-Za-z0-9_]` of RE_SNIPPETS_SUFFIX. -/
def alnumChar (c : Char) : Bool := c.isAlphanum || c = '_'

/-- If `cs` begins with the literal `pat`, return the remainder. -/
def stripPref : List Char → List Char → Option (List Char)
  | [], cs => some cs
  | _ :: _, [] => none
  | p :: ps, c :: cs => if p = c then stripPref ps cs else none

/-- First occurrence of the literal `pat` inside `cs`:
`(text before, text after)` with the occurrence removed. -/
def splitFirst (pat : List Char) : List Char → Option (List Char × List Char)
  | [] =>
    match stripPref pat [] with
    | some r => some ([], r)
    | none => none
  | c :: cs =>
    match stripPref pat (c :: cs) with
    | some r => some ([], r)
    | none =>
      match splitFirst pat cs with
      | some (pre, post) => some (c :: pre, post)
      | none => none

/-- Match `\[KW\s+(<good>+)\s*\]` (the `\s*` only when `trailWS`) starting
exactly at the head of `cs`; returns the captured name and the rest after
the closing bracket.  Greedy matching is exact here because the character
classes involved are pairwise disjoint. -/
def markerHere (kw : List Char) (good : Char → Bool) (trailWS : Bool)
    (cs : List Char) : Option (List Char × List Char) :=
  match stripPref ('[' :: kw) cs with
  | none => none
  | some r1 =>
    if (r1.takeWhile jsWS).isEmpty then none
    else
      let r2 := r1.dropWhile jsWS
      let nm := r2.takeWhile good
      if nm.isEmpty then none
      else
        let r3 := r2.dropWhile good
        let r4 := if trailWS then r3.dropWhile jsWS else r3
        match r4 with
        | ']' :: rest => some (nm, rest)
        | _ => none

/-- Leftmost match of the marker pattern anywhere in the line:
`(text before the match, captured name, text after the match)`. -/
def findMarker (kw : List Char) (good : Char → Bool) (trailWS : Bool) :
    List Char → Option (List Char × List Char × List Char)
  | [] => none
  | c :: cs =>
    match markerHere kw good trailWS (c :: cs) with
    | some (nm, rest) => some ([], nm, rest)
    | none =>
      match findMarker kw good trailWS cs with
      | some (pre, nm, rest) => some (c :: pre, nm, rest)
      | none => none

/-- Match of RE_SNIPPETS_SEPARATION = `\[SNIPPETS_SEPARATION\s+enabled\]`
starting exactly at the head of `cs`. -/
def sepHere (cs : List Char) : Bool :=
  match stripPref ("[SNIPPETS_SEPARATION".toList) cs with
  | none => false
  | some r1 =>
    if (r1.takeWhile jsWS).isEmpty then false
    else (stripPref ("enabled]".toList) (r1.dropWhile jsWS)).isSome

/-- RE_SNIPPETS_SEPARATION matched anywhere in the line. -/
def sepAnywhere : List Char → Bool
  | [] => false
  | c :: cs => sepHere (c :: cs) || sepAnywhere cs

/-- Lazy group 2 of RE_REQUIRE, `(.+?)\)`: shortest nonempty run of
characters followed by a closing paren. -/
def reqTail (cs : List Char) : Option (List Char × List Char) :=
  match cs with
  | [] => none
  | c :: rest =>
    match splitFirst [')'] rest with
    | some (mid, post) => some (c :: mid, post)
    | none => none

/-- Scan for the end of lazy group 1 of RE_REQUIRE: the first
`\x7d = require(` past a nonempty group 1 whose continuation also
matches; on failure of the continuation the lazy group extends
(occurrences of the literal cannot overlap).  `acc` holds group 1 so
far, reversed. -/
def reqScan (acc : List Char) : List Char → Option (List Char × List Char × List Char)
  | [] => none
  | c :: cs =>
    match stripPref ("\x7d = require(".toList) (c :: cs) with
    | some r =>
      if acc.isEmpty then reqScan (c :: acc) cs
      else
        match reqTail r with
        | some (g2, post) => some (acc.reverse, g2, post)
        | none => reqScan (c :: acc) cs
    | none => reqScan (c :: acc) cs

/-- Leftmost match of RE_REQUIRE = `const {(.+?)} = require\((.+?)\)`:
`(text before, group 1, group 2, text after)`. -/
def reqFind : List Char → Option (List Char × List Char × List Char × List Char)
  | [] => none
  | c :: cs =>
    match stripPref ("const \x7b".toList) (c :: cs) with
    | some r =>
      match reqScan [] r with
      | some (g1, g2, post) => some ([], g1, g2, post)
      | none =>
        match reqFind cs with
        | some (pre, g1, g2, post) => some (c :: pre, g1, g2, post)
        | none => none
    | none =>
      match reqFind cs with
      | some (pre, g1, g2, post) => some (c :: pre, g1, g2, post)
      | none => none

/-- `isBlank`: `line.trim().length === 0`. -/
def isBlank (line : String) : Bool := line.toList.all jsWS

def startKw : List Char := "START".toList

def endKw : List Char := "END".toList

/-- `line.match(RE_START_SNIPPET)`, reduced to the captured name. -/
def startMatch (line : String) : Option String :=
  (findMarker startKw nameChar true line.toList).map (fun r => String.mk r.2.1)

/-- `line.match(RE_END_SNIPPET)`, reduced to the captured name. -/
def endMatch (line : String) : Option String :=
  (findMarker endKw nameChar true line.toList).map (fun r => String.mk r.2.1)

/-- `line.match(RE_SNIPPETS_SUFFIX)`, reduced to the captured name. -/
def suffixMatch (line : String) : Option String :=
  (findMarker ("SNIPPETS_SUFFIX".toList) alnumChar false line.toList).map
    (fun r => String.mk r.2.1)

/-- `line.replace(RE_START_SNIPPET, "[START $1" + sfx + "]")` when the
regex matches (first match replaced), else `none`. -/
def rewriteStartTag (line : String) (sfx : String) : Option String :=
  (findMarker startKw nameChar true line.toList).map (fun r =>
    String.mk (r.1 ++ ("[START ".toList ++ (r.2.1 ++ (sfx.toList ++ (']' :: r.2.2))))))

/-- `line.replace(RE_END_SNIPPET, "[END $1" + sfx + "]")` when the regex
matches (first match replaced), else `none`. -/
def rewriteEndTag (line : String) (sfx : String) : Option String :=
  (findMarker endKw nameChar true line.toList).map (fun r =>
    String.mk (r.1 ++ ("[END ".toList ++ (r.2.1 ++ (sfx.toList ++ (']' :: r.2.2))))))

/-- One line of `addSuffixToSnippetNames`: the if / else-if / else chain. -/
def suffixOneLine (line : String) (sfx : String) : String :=
  match rewriteStartTag line sfx with
  | some l2 => l2
  | none =>
    match rewriteEndTag line sfx with
    | some l2 => l2
    | none => line

/-- `addSuffixToSnippetNames(lines, snippetSuffix)`. -/
def addSuffixToSnippetNames (lines : List String) (sfx : String) : List String :=
  lines.map (fun l => suffixOneLine l sfx)

/-- `replaceRequireWithImport(lines)`: each line matching RE_REQUIRE has
its first match replaced by `import {$1} from $2`. -/
def replaceRequireWithImport (lines : List String) : List String :=
  lines.map (fun line =>
    match reqFind line.toList with
    | some (pre, g1, g2, post) =>
      String.mk (pre ++ ("import \x7b".toList ++ (g1 ++ ("\x7d from ".toList ++ (g2 ++ post)))))
    | none => line)

/-- `l.length - l.trimLeft().length`: count of leading whitespace. -/
def indentOf (line : String) : Nat := (line.toList.takeWhile jsWS).length

/-- `Math.min(...indentSizes)` over the non-blank lines.  The `[]` case
(Infinity in JS) is never consumed: `adjustIndentation` only applies the
minimum to non-blank lines, of which there are then none. -/
def minIndentOf (lines : List String) : Nat :=
  match (lines.filter (fun l => !(isBlank l))).map indentOf with
  | [] => 0
  | x :: xs => xs.foldl min x

/-- `line.substr(n)`. -/
def strDrop (n : Nat) (line : String) : String := String.mk (line.toList.drop n)

/-- `adjustIndentation(lines)`. -/
def adjustIndentation (lines : List String) : List String :=
  lines.map (fun l => if isBlank l then "" else strDrop (minIndentOf lines) l)

/-- `l.startsWith("//")`. -/
def startsWithCmt (line : String) : Bool := (stripPref ("//".toList) line.toList).isSome

/-- `removeFirstLineAfterComments(lines)`. -/
def removeFirstLineAfterComments (lines : List String) : List String :=
  match lines.findIdx? (fun l => !(startsWithCmt l)) with
  | none => lines
  | some i => if isBlank (lines.getD i "") then lines.eraseIdx i else lines

/-- The four transforms of `processSnippet`, in source order, before the
preamble is prepended. -/
def processSnippetLines (lines : List String) (snippetSuffix : String) : List String :=
  removeFirstLineAfterComments
    (adjustIndentation
      (addSuffixToSnippetNames (replaceRequireWithImport lines) snippetSuffix))

/-- The fixed preamble of `processSnippet`. -/
def preambleLines (sourceFile : String) : List String :=
  ["// This snippet file was generated by processing the source file:",
   "// " ++ sourceFile,
   "//",
   "// To update the snippets in this file, edit the source and then run",
   "// \x27npm run snippets\x27.",
   ""]

/-- `processSnippet(lines, sourceFile, snippetSuffix)`. -/
def processSnippet (lines : List String) (sourceFile : String)
    (snippetSuffix : String) : String :=
  String.intercalate "\n" (preambleLines sourceFile ++ processSnippetLines lines snippetSuffix)

/-- The two `throw new Error(...)` cases of `collectSnippets`. -/
inductive CollectError where
  | duplicateSnippetName (name : String)
  | unmatchedEndTag (name : String)
  deriving DecidableEq

/-- `SnippetsConfig`, with the JS object `map` as an association list in
insertion order. -/
structure SnippetsConfig where
  enabled : Bool
  suffix : String
  map : List (String × List String)
  deriving DecidableEq

def DEFAULT_SUFFIX : String := "_modular"

/-- `config.map[snippetName].push(line)` for a single name. -/
def updateEntry (m : List (String × List String)) (n : String) (line : String) :
    List (String × List String) :=
  m.map (fun p => if p.1 = n then (p.1, p.2 ++ [line]) else p)

/-- `config.map[snippetName].push(line)` for every currently open name. -/
def appendToOpen (m : List (String × List String)) (opens : List String) (line : String) :
    List (String × List String) :=
  m.map (fun p => if p.1 ∈ opens then (p.1, p.2 ++ [line]) else p)

/-- The per-line loop of `collectSnippets`: fold over the lines carrying
`config.map` and `inSnippetNames`; also returns the final open list,
which the source discards. -/
def collectLoop : List String → List (String × List String) → List String →
    Except CollectError (List (String × List String) × List String)
  | [], m, opens => .ok (m, opens)
  | line :: rest, m, opens =>
    match startMatch line with
    | some snippetName =>
      if (m.lookup snippetName).isSome then
        .error (.duplicateSnippetName snippetName)
      else
        collectLoop rest (m ++ [(snippetName, [line])]) (opens ++ [snippetName])
    | none =>
      match endMatch line with
      | some snippetName =>
        if snippetName ∈ opens then
          collectLoop rest (updateEntry m snippetName line) (opens.erase snippetName)
        else
          .error (.unmatchedEndTag snippetName)
      | none =>
        if opens.isEmpty then collectLoop rest m opens
        else collectLoop rest (appendToOpen m opens line) opens

/-- `collectSnippets(filePath)` on the file's lines (the `fs` read is
I/O glue outside the engine). -/
def collectSnippets (lines : List String) : Except CollectError SnippetsConfig :=
  if !(lines.any (fun l => sepAnywhere l.toList)) then
    .ok ⟨false, DEFAULT_SUFFIX, []⟩
  else
    let sfx :=
      match lines.find? (fun l => (suffixMatch l).isSome) with
      | some l =>
        match suffixMatch l with
        | some s => s
        | none => DEFAULT_SUFFIX
      | none => DEFAULT_SUFFIX
    (collectLoop lines [] []).map (fun r => ⟨true, sfx, r.1⟩)

/-- The pure check mirroring the two error conditions of the collect
loop: `true` iff no Start line reuses a collected key and every End line
names an open region.  Tracks only the key list and the open list. -/
def scanNoError : List String → List String → List String → Bool
  | [], _, _ => true
  | line :: rest, keys, opens =>
    match startMatch line with
    | some n =>
      if n ∈ keys then false else scanNoError rest (keys ++ [n]) (opens ++ [n])
    | none =>
      match endMatch line with
      | some n => if n ∈ opens then scanNoError rest keys (opens.erase n) else false
      | none => scanNoError rest keys opens

/-- `Except` success test. -/
def isOkE {ε α : Type} : Except ε α → Bool
  | .ok _ => true
  | .error _ => false

/-- `filePath.replace(pat, repl)` with a string pattern: first
occurrence only. -/
def replaceFirstL (pat repl cs : List Char) : List Char :=
  match splitFirst pat cs with
  | some (pre, post) => pre ++ (repl ++ post)
  | none => cs

/-- The `fileSlug` computation of `main`:
`.replace(".js", "").replace("./", "").replace(/\./g, "-")`. -/
def fileSlugOf (filePath : String) : String :=
  String.mk ((replaceFirstL ("./".toList) []
      (replaceFirstL (".js".toList) [] filePath.toList)).map
    (fun c => if c = '.' then '-' else c))

/-- `path.join(a, b)` modelled as plain separator concatenation
(Node's path normalization is not modelled). -/
def joinP (a b : String) : String := a ++ "/" ++ b

/-- `snippetDir` of `main`. -/
def snippetDirOf (filePath : String) : String := joinP "./snippets" (fileSlugOf filePath)

/-- `newFilePath` of `main`: the emitted output path for one region. -/
def newFilePathOf (filePath snippetName : String) : String :=
  joinP (snippetDirOf filePath) (snippetName ++ ".js")

/-- Modelled from the spec: the spec's description of the file slug, for
comparison with `fileSlugOf` — "a slug of the source file path
(extension stripped, path separators and dots converted to a single
separator character)", with `-` as the separator character the engine
uses. -/
def specFileSlug (filePath : String) : String :=
  let cs := filePath.toList
  let stripped :=
    match cs.reverse.dropWhile (fun c => !(c = '.')) with
    | [] => cs
    | _ :: beforeDot => beforeDot.reverse
  String.mk (stripped.map (fun c => if c = '/' || c = '.' then '-' else c))

/-- Concrete nesting input of C1 (in an enabled file). -/
def c1File : List String :=
  ["// [SNIPPETS_SEPARATION enabled]",
   "[START a]", "L1", "[START b]", "L2", "[END b]", "L3", "[END a]"]

/-- Concrete end-to-end input file of C2. -/
def c2File : List String :=
  ["// [SNIPPETS_SEPARATION enabled]",
   "// [SNIPPETS_SUFFIX _doc]",
   "[START demo]",
   "",
   "  const \x7bx\x7d = require(\x27y\x27)",
   "[END demo]"]

/-- The single region collected from `c2File`. -/
def c2Region : List String :=
  ["[START demo]", "", "  const \x7bx\x7d = require(\x27y\x27)", "[END demo]"]

end SeparateSnippets

namespace SeparateSnippets

/-! ### Helper lemmas -/

theorem mapCongrMem {α β : Type} (l : List α) (f g : α → β)
    (h : ∀ a ∈ l, f a = g a) : l.map f = l.map g := by
  induction l with
  | nil => rfl
  | cons a l ih =>
    simp only [List.map_cons]
    rw [h a (List.mem_cons_self a l), ih (fun b hb => h b (List.mem_cons_of_mem a hb))]

theorem mapEqSelf {α : Type} (l : List α) (f : α → α)
    (h : ∀ a ∈ l, f a = a) : l.map f = l := by
  rw [mapCongrMem l f id h]
  exact List.map_id l

theorem updateEntry_cons_eq (k : String) (v : List String)
    (m : List (String × List String)) (line : String) :
    updateEntry ((k, v) :: m) k line = (k, v ++ [line]) :: updateEntry m k line := by
  simp [updateEntry, List.map_cons]

theorem updateEntry_cons_ne (k n : String) (v : List String)
    (m : List (String × List String)) (line : String) (h : k ≠ n) :
    updateEntry ((k, v) :: m) n line = (k, v) :: updateEntry m n line := by
  simp only [updateEntry, List.map_cons]
  rw [if_neg h]

theorem lookup_isSome_iff (m : List (String × List String)) (n : String) :
    (m.lookup n).isSome = true ↔ n ∈ m.map Prod.fst := by
  induction m with
  | nil => simp [List.lookup]
  | cons p m ih =>
    obtain ⟨k, v⟩ := p
    by_cases hk : n = k
    · subst hk
      simp [List.lookup]
    · have hkb : (n == k) = false := beq_eq_false_iff_ne.mpr hk
      simp only [List.lookup, hkb, List.map_cons, List.mem_cons]
      rw [ih]
      constructor
      · exact Or.inr
      · rintro (h1 | h2)
        · exact absurd h1 hk
        · exact h2

theorem mapFst_append (m : List (String × List String)) (n : String) (l : List String) :
    (m ++ [(n, l)]).map Prod.fst = m.map Prod.fst ++ [n] := by
  simp

theorem mapFst_updateEntry (m : List (String × List String)) (n line : String) :
    (updateEntry m n line).map Prod.fst = m.map Prod.fst := by
  simp only [updateEntry, List.map_map]
  apply mapCongrMem
  intro p _
  simp only [Function.comp]
  split <;> rfl

theorem mapFst_appendToOpen (m : List (String × List String)) (opens : List String)
    (line : String) : (appendToOpen m opens line).map Prod.fst = m.map Prod.fst := by
  simp only [appendToOpen, List.map_map]
  apply mapCongrMem
  intro p _
  simp only [Function.comp]
  split <;> rfl

theorem lookup_updateEntry (m : List (String × List String)) (n line : String) :
    ∀ ls, m.lookup n = some ls →
      (updateEntry m n line).lookup n = some (ls ++ [line]) := by
  induction m with
  | nil => intro ls h; simp [List.lookup] at h
  | cons p m ih =>
    intro ls h
    obtain ⟨k, v⟩ := p
    by_cases hk : k = n
    · subst hk
      simp only [List.lookup, beq_self_eq_true] at h
      rw [updateEntry_cons_eq]
      simp only [List.lookup, beq_self_eq_true]
      rw [Option.some_inj.mp h]
    · have hkb : (n == k) = false := beq_eq_false_iff_ne.mpr (fun hnk => hk hnk.symm)
      simp only [List.lookup, hkb] at h
      rw [updateEntry_cons_ne k n v m line hk]
      simp only [List.lookup, hkb]
      exact ih ls h

theorem foldl_min_le (xs : List Nat) :
    ∀ x y : Nat, y ∈ x :: xs → List.foldl min x xs ≤ y := by
  induction xs with
  | nil =>
    intro x y hy
    rw [List.mem_singleton] at hy
    subst hy
    exact le_refl _
  | cons a xs ih =>
    intro x y hy
    show List.foldl min (min x a) xs ≤ y
    rcases List.mem_cons.mp hy with h1 | h2
    · subst h1
      exact le_trans (ih (min y a) (min y a) (List.mem_cons_self _ _)) (min_le_left _ _)
    · rcases List.mem_cons.mp h2 with h3 | h4
      · subst h3
        exact le_trans (ih (min x y) (min x y) (List.mem_cons_self _ _)) (min_le_right _ _)
      · exact ih (min x a) y (List.mem_cons_of_mem _ h4)

theorem foldl_min_mem (xs : List Nat) :
    ∀ x : Nat, List.foldl min x xs ∈ x :: xs := by
  induction xs with
  | nil => intro x; exact List.mem_singleton.mpr rfl
  | cons a xs ih =>
    intro x
    show List.foldl min (min x a) xs ∈ x :: a :: xs
    rcases List.mem_cons.mp (ih (min x a)) with h1 | h2
    · rcases min_choice x a with hc | hc
      · rw [h1, hc]
        exact List.mem_cons_self _ _
      · rw [h1, hc]
        exact List.mem_cons_of_mem _ (List.mem_cons_self _ _)
    · exact List.mem_cons_of_mem _ (List.mem_cons_of_mem _ h2)

end SeparateSnippets

namespace SeparateSnippets

/-! ### Claim theorems -/

/-- C1 counterexample: on `[START a]` L1 `[START b]` L2 `[END b]` L3
`[END a]` in an enabled file, the collector gives region `a` the five
lines `[START a], L1, L2, L3, [END a]` — not the seven lines the claim
states: the inner region's `[START b]` and `[END b]` marker lines are
not appended to the outer open region. -/
theorem C1_counterexample :
    collectSnippets c1File =
      .ok ⟨true, "_modular",
        [("a", ["[START a]", "L1", "L2", "L3", "[END a]"]),
         ("b", ["[START b]", "L2", "[END b]"])]⟩
    ∧ (["[START a]", "L1", "L2", "L3", "[END a]"] : List String) ≠
        ["[START a]", "L1", "[START b]", "L2", "[END b]", "L3", "[END a]"] := by
  constructor
  · rfl
  · decide

/-- C1 (amended): on the nesting input, region `a`'s sequence is exactly
`[START a], L1, L2, L3, [END a]` and region `b`'s is exactly
`[START b], L2, [END b]`; the inner marker lines belong only to `b`,
L1 and L3 appear only in `a`, and L2 appears in both. -/
theorem C1_nesting :
    (∃ m, collectSnippets c1File = .ok ⟨true, "_modular", m⟩
      ∧ m.lookup "a" = some ["[START a]", "L1", "L2", "L3", "[END a]"]
      ∧ m.lookup "b" = some ["[START b]", "L2", "[END b]"])
    ∧ ("L1" ∈ (["[START a]", "L1", "L2", "L3", "[END a]"] : List String)
        ∧ "L1" ∉ (["[START b]", "L2", "[END b]"] : List String))
    ∧ ("L3" ∈ (["[START a]", "L1", "L2", "L3", "[END a]"] : List String)
        ∧ "L3" ∉ (["[START b]", "L2", "[END b]"] : List String))
    ∧ ("L2" ∈ (["[START a]", "L1", "L2", "L3", "[END a]"] : List String)
        ∧ "L2" ∈ (["[START b]", "L2", "[END b]"] : List String)) := by
  refine ⟨⟨[("a", ["[START a]", "L1", "L2", "L3", "[END a]"]),
            ("b", ["[START b]", "L2", "[END b]"])], rfl, rfl, rfl⟩, ?_, ?_, ?_⟩
  · exact ⟨by decide, by decide⟩
  · exact ⟨by decide, by decide⟩
  · exact ⟨by decide, by decide⟩

/-- C2 counterexample: on the enabled file with suffix `_doc` and the
region `[START demo]` / blank / two-space-indented require / `[END demo]`,
the transform pipeline keeps the blank line (the first non-comment line
is the Start tag line, which is not blank) and keeps the two-space
indentation (the minimum indentation over non-blank lines, including the
tag lines, is 0) — so the body is not the three lines the claim states. -/
theorem C2_counterexample :
    collectSnippets c2File = .ok ⟨true, "_doc", [("demo", c2Region)]⟩
    ∧ processSnippetLines c2Region "_doc" =
        ["[START demo_doc]", "", "  import \x7bx\x7d from \x27y\x27", "[END demo_doc]"]
    ∧ processSnippetLines c2Region "_doc" ≠
        ["[START demo_doc]", "import \x7bx\x7d from \x27y\x27", "[END demo_doc]"] := by
  refine ⟨rfl, rfl, ?_⟩
  decide

/-- C2 (amended): the pipeline on that region with suffix `_doc`
produces exactly `[START demo_doc]`, an empty line,
`  import {x} from 'y'` (two-space indentation retained), and
`[END demo_doc]`: the require is rewritten and the tags suffixed, but
the blank line is not removed and the indentation is not stripped. -/
theorem C2_pipeline :
    collectSnippets c2File = .ok ⟨true, "_doc", [("demo", c2Region)]⟩
    ∧ processSnippetLines c2Region "_doc" =
        ["[START demo_doc]", "", "  import \x7bx\x7d from \x27y\x27", "[END demo_doc]"] :=
  ⟨rfl, rfl⟩

/-- C3: at a line classified as Start(name), the collector fails with
the duplicate-name error exactly when the name is already a key of the
result mapping built so far (open or not); otherwise it does not fail at
that line and continues with the name freshly seeded and opened. -/
theorem C3_duplicate_start (line snippetName : String) (rest : List String)
    (m : List (String × List String)) (opens : List String)
    (h : startMatch line = some snippetName) :
    collectLoop (line :: rest) m opens =
      if (m.lookup snippetName).isSome then
        .error (.duplicateSnippetName snippetName)
      else
        collectLoop rest (m ++ [(snippetName, [line])]) (opens ++ [snippetName]) := by
  simp only [collectLoop, h]

/-- C3 witness: a second `[START alpha]` is fatal even though the first
`alpha` region is already closed; a fresh name is not. -/
theorem C3_witness :
    startMatch "[START alpha]" = some "alpha"
    ∧ collectLoop ["[START alpha]"] [("alpha", ["x"])] [] =
        .error (.duplicateSnippetName "alpha")
    ∧ collectLoop ["[START beta]"] [("alpha", ["x"])] [] =
        .ok ([("alpha", ["x"]), ("beta", ["[START beta]"])], ["beta"]) := by
  refine ⟨by decide, ?_, ?_⟩
  · rw [C3_duplicate_start "[START alpha]" "alpha" [] [("alpha", ["x"])] [] (by decide)]
    rfl
  · rw [C3_duplicate_start "[START beta]" "beta" [] [("alpha", ["x"])] [] (by decide)]
    rfl

/-- C4: at a line classified as End(name) (and not Start), the collector
fails with the unmatched-end error exactly when the name is not open;
when it is open, the line is appended to that region's sequence and the
name is removed from the open list, with no error. -/
theorem C4_end_tag (line snippetName : String) (rest : List String)
    (m : List (String × List String)) (opens : List String)
    (h1 : startMatch line = none) (h2 : endMatch line = some snippetName) :
    (snippetName ∈ opens →
      collectLoop (line :: rest) m opens =
        collectLoop rest (updateEntry m snippetName line) (opens.erase snippetName))
    ∧ (snippetName ∉ opens →
      collectLoop (line :: rest) m opens = .error (.unmatchedEndTag snippetName))
    ∧ (∀ ls, m.lookup snippetName = some ls →
      (updateEntry m snippetName line).lookup snippetName = some (ls ++ [line])) := by
  refine ⟨?_, ?_, lookup_updateEntry m snippetName line⟩
  · intro hmem
    simp only [collectLoop, h1, h2, if_pos hmem]
  · intro hmem
    simp only [collectLoop, h1, h2, if_neg hmem]

/-- C4 witness: `[END alpha]` with `alpha` open appends the line and
closes the region; `[END beta]` with `beta` not open is fatal. -/
theorem C4_witness :
    collectLoop ["[END alpha]"] [("alpha", ["[START alpha]"])] ["alpha"] =
      .ok ([("alpha", ["[START alpha]", "[END alpha]"])], [])
    ∧ collectLoop ["[END beta]"] [("alpha", ["[START alpha]"])] ["alpha"] =
      .error (.unmatchedEndTag "beta") := by
  constructor
  · rw [(C4_end_tag "[END alpha]" "alpha" [] [("alpha", ["[START alpha]"])] ["alpha"]
      (by decide) (by decide)).1 (by decide)]
    rfl
  · exact (C4_end_tag "[END beta]" "beta" [] [("alpha", ["[START alpha]"])] ["alpha"]
      (by decide) (by decide)).2.1 (by decide)

end SeparateSnippets

namespace SeparateSnippets

/-- C5: the collect loop has no end-of-file check: whenever no line
triggers the duplicate-Start or unmatched-End condition (the pure check
`scanNoError`), the loop returns successfully — even with regions still
open at end of file; concretely, a file whose region `alpha` is opened
and never closed succeeds, with `alpha` still in the final open list and
its entry holding the lines captured up to end of file. -/
theorem C5_no_eof_check :
    (∀ (lines : List String) (m : List (String × List String)) (opens : List String),
      scanNoError lines (m.map Prod.fst) opens = true →
      isOkE (collectLoop lines m opens) = true)
    ∧ collectLoop ["// [START alpha]", "L1"] [] [] =
        .ok ([("alpha", ["// [START alpha]", "L1"])], ["alpha"]) := by
  constructor
  · intro lines
    induction lines with
    | nil => intro m opens _; rfl
    | cons line rest ih =>
      intro m opens h
      simp only [scanNoError] at h
      simp only [collectLoop]
      cases hs : startMatch line with
      | some n =>
        rw [hs] at h
        simp only at h ⊢
        by_cases hmem : n ∈ m.map Prod.fst
        · rw [if_pos hmem] at h
          exact absurd h (by simp)
        · rw [if_neg hmem] at h
          rw [if_neg (fun hb => hmem ((lookup_isSome_iff m n).mp hb))]
          apply ih
          rw [mapFst_append]
          exact h
      | none =>
        rw [hs] at h
        simp only at h ⊢
        cases he : endMatch line with
        | some n =>
          rw [he] at h
          simp only at h ⊢
          by_cases hmem : n ∈ opens
          · rw [if_pos hmem] at h ⊢
            apply ih
            rw [mapFst_updateEntry]
            exact h
          · rw [if_neg hmem] at h
            exact absurd h (by simp)
        | none =>
          rw [he] at h
          simp only at h ⊢
          by_cases hemp : opens.isEmpty
          · rw [if_pos hemp]
            exact ih m opens h
          · rw [if_neg hemp]
            apply ih
            rw [mapFst_appendToOpen]
            exact h
  · rfl

/-- C5 witness: the dangling-open file passes the error check and the
loop returns successfully. -/
theorem C5_witness :
    scanNoError ["// [START alpha]", "L1"]
        (List.map Prod.fst ([] : List (String × List String))) [] = true
    ∧ isOkE (collectLoop ["// [START alpha]", "L1"] [] []) = true := by
  refine ⟨by decide, ?_⟩
  exact C5_no_eof_check.1 ["// [START alpha]", "L1"] [] [] (by decide)

/-- C6: with at least one non-blank line, indentation normalization
returns each non-blank line with exactly the first `minIndentOf lines`
characters removed and the empty string for every blank line, and
`minIndentOf lines` is the minimum leading-whitespace count over the
non-blank lines: a lower bound that is attained by some non-blank line
(which is therefore left-aligned afterwards). -/
theorem C6_indentation (lines : List String)
    (h : ∃ l ∈ lines, isBlank l = false) :
    adjustIndentation lines =
      lines.map (fun l => if isBlank l then "" else strDrop (minIndentOf lines) l)
    ∧ (∀ l ∈ lines, isBlank l = false → minIndentOf lines ≤ indentOf l)
    ∧ (∃ l ∈ lines, isBlank l = false ∧ indentOf l = minIndentOf lines) := by
  obtain ⟨l0, hl0, hb0⟩ := h
  have hl0f : l0 ∈ lines.filter (fun l => !(isBlank l)) :=
    List.mem_filter.mpr ⟨hl0, by simp [hb0]⟩
  cases hview : (lines.filter (fun l => !(isBlank l))).map indentOf with
  | nil =>
    exfalso
    have hmem : indentOf l0 ∈ (lines.filter (fun l => !(isBlank l))).map indentOf :=
      List.mem_map_of_mem indentOf hl0f
    rw [hview] at hmem
    exact absurd hmem (List.not_mem_nil _)
  | cons x xs =>
    have hmin : minIndentOf lines = xs.foldl min x := by
      unfold minIndentOf
      rw [hview]
    refine ⟨rfl, ?_, ?_⟩
    · intro l hl hbl
      have hmem : indentOf l ∈ x :: xs := by
        rw [← hview]
        exact List.mem_map_of_mem indentOf (List.mem_filter.mpr ⟨hl, by simp [hbl]⟩)
      rw [hmin]
      exact foldl_min_le xs x (indentOf l) hmem
    · have hm : xs.foldl min x ∈ x :: xs := foldl_min_mem xs x
      rw [← hview] at hm
      obtain ⟨l, hlf, hle⟩ := List.mem_map.mp hm
      have hfl := List.mem_filter.mp hlf
      refine ⟨l, hfl.1, ?_, ?_⟩
      · have hb := hfl.2
        simpa using hb
      · rw [hmin]
        exact hle

/-- C6 witness: on a concrete region the minimum indent is 1 and is
attained, each non-blank line loses exactly one leading character, and
the blank line becomes empty. -/
theorem C6_witness :
    (adjustIndentation ["  one", "   two", "", " three"] =
        (["  one", "   two", "", " three"] : List String).map
          (fun l => if isBlank l then ""
                    else strDrop (minIndentOf ["  one", "   two", "", " three"]) l)
      ∧ (∀ l ∈ (["  one", "   two", "", " three"] : List String),
          isBlank l = false → minIndentOf ["  one", "   two", "", " three"] ≤ indentOf l)
      ∧ (∃ l ∈ (["  one", "   two", "", " three"] : List String),
          isBlank l = false ∧ indentOf l = minIndentOf ["  one", "   two", "", " three"]))
    ∧ adjustIndentation ["  one", "   two", "", " three"] = [" one", "  two", "", "three"]
    ∧ minIndentOf ["  one", "   two", "", " three"] = 1 := by
  refine ⟨C6_indentation ["  one", "   two", "", " three"] ⟨" three", by decide, by decide⟩,
    by decide, by decide⟩

end SeparateSnippets

namespace SeparateSnippets

/-- C7: the require-to-import rewrite maps
`const {a, b} = require('x')` to `import {a, b} from 'x'`; every line on
which RE_REQUIRE has no match is returned unchanged, and in particular a
line already in import form is unchanged. -/
theorem C7_require_rewrite :
    replaceRequireWithImport ["const \x7ba, b\x7d = require(\x27x\x27)"] =
      ["import \x7ba, b\x7d from \x27x\x27"]
    ∧ (∀ line : String, reqFind line.toList = none →
        replaceRequireWithImport [line] = [line])
    ∧ replaceRequireWithImport ["import \x7ba, b\x7d from \x27x\x27"] =
        ["import \x7ba, b\x7d from \x27x\x27"] := by
  refine ⟨by decide, ?_, by decide⟩
  intro line hno
  have h2 : reqFind line.data = none := hno
  simp [replaceRequireWithImport, h2]

/-- C7 witness: a line with no require pattern is returned unchanged. -/
theorem C7_witness :
    reqFind ("let x = 5").toList = none
    ∧ replaceRequireWithImport ["let x = 5"] = ["let x = 5"] :=
  ⟨by decide, C7_require_rewrite.2.1 "let x = 5" (by decide)⟩

/-- C8 counterexample: a region with no leading comment block whose
first line is blank is not returned unchanged by the fourth transform —
the blank first line is removed (still without any error): the claim's
blanket "returned unchanged" fails on this input. -/
theorem C8_counterexample :
    removeFirstLineAfterComments ["", "x"] = ["x"]
    ∧ (["x"] : List String) ≠ ["", "x"] := by
  constructor
  · rfl
  · decide

/-- C8 (amended): every transform step is a total function (it returns a
result and cannot raise).  Degenerate inputs fall through without error:
no require match anywhere leaves the region unchanged; no Start/End
marker anywhere leaves the tag-suffixing step a no-op; an all-blank
region (no minimum indentation) is mapped to empty strings; a region
whose lines are all comments, or whose first non-comment line is
non-blank, is unchanged by the fourth step — whose only other behavior
is the removal of exactly one line, including the case of a blank first
line with no leading comment block. -/
theorem C8_transform_totality :
    (∀ lines : List String, (∀ l ∈ lines, reqFind l.toList = none) →
      replaceRequireWithImport lines = lines)
    ∧ (∀ (lines : List String) (sfx : String),
        (∀ l ∈ lines, startMatch l = none ∧ endMatch l = none) →
        addSuffixToSnippetNames lines sfx = lines)
    ∧ (∀ lines : List String, (∀ l ∈ lines, isBlank l = true) →
        adjustIndentation lines = lines.map (fun _ => ""))
    ∧ (∀ lines : List String,
        lines.findIdx? (fun l => !(startsWithCmt l)) = none →
        removeFirstLineAfterComments lines = lines)
    ∧ (∀ (lines : List String) (i : Nat),
        lines.findIdx? (fun l => !(startsWithCmt l)) = some i →
        isBlank (lines.getD i "") = false →
        removeFirstLineAfterComments lines = lines)
    ∧ (∀ lines : List String,
        removeFirstLineAfterComments lines = lines ∨
        ∃ i, lines.findIdx? (fun l => !(startsWithCmt l)) = some i ∧
          removeFirstLineAfterComments lines = lines.eraseIdx i) := by
  refine ⟨?_, ?_, ?_, ?_, ?_, ?_⟩
  · intro lines hno
    apply mapEqSelf
    intro l hl
    have h2 : reqFind l.data = none := hno l hl
    simp [h2]
  · intro lines sfx hno
    apply mapEqSelf
    intro l hl
    obtain ⟨hs, he⟩ := hno l hl
    have hs2 : rewriteStartTag l sfx = none := by
      have h3 : findMarker startKw nameChar true l.data = none := Option.map_eq_none'.mp hs
      simp [rewriteStartTag, h3]
    have he2 : rewriteEndTag l sfx = none := by
      have h3 : findMarker endKw nameChar true l.data = none := Option.map_eq_none'.mp he
      simp [rewriteEndTag, h3]
    simp [suffixOneLine, hs2, he2]
  · intro lines hbl
    apply mapCongrMem
    intro l hl
    simp [hbl l hl]
  · intro lines hni
    unfold removeFirstLineAfterComments
    rw [hni]
  · intro lines i hfi hnb
    unfold removeFirstLineAfterComments
    rw [hfi]
    show (if isBlank (lines.getD i "") = true then lines.eraseIdx i else lines) = lines
    rw [hnb]
    simp
  · intro lines
    cases hfi : lines.findIdx? (fun l => !(startsWithCmt l)) with
    | none =>
      left
      unfold removeFirstLineAfterComments
      rw [hfi]
    | some i =>
      cases hb : isBlank (lines.getD i "") with
      | true =>
        right
        refine ⟨i, rfl, ?_⟩
        unfold removeFirstLineAfterComments
        rw [hfi]
        show (if isBlank (lines.getD i "") = true then lines.eraseIdx i else lines) =
          lines.eraseIdx i
        rw [hb]
        simp
      | false =>
        left
        unfold removeFirstLineAfterComments
        rw [hfi]
        show (if isBlank (lines.getD i "") = true then lines.eraseIdx i else lines) = lines
        rw [hb]
        simp

/-- C8 witness: the no-op fallthrough cases at concrete inputs. -/
theorem C8_witness :
    replaceRequireWithImport ["hello"] = ["hello"]
    ∧ addSuffixToSnippetNames ["plain text"] "_m" = ["plain text"]
    ∧ adjustIndentation ["", "  "] = (["", "  "] : List String).map (fun _ => "")
    ∧ removeFirstLineAfterComments ["// a", "// b"] = ["// a", "// b"]
    ∧ removeFirstLineAfterComments ["// a", "x"] = ["// a", "x"] :=
  ⟨C8_transform_totality.1 ["hello"] (by decide),
   C8_transform_totality.2.1 ["plain text"] "_m" (by decide),
   C8_transform_totality.2.2.1 ["", "  "] (by decide),
   C8_transform_totality.2.2.2.1 ["// a", "// b"] (by decide),
   C8_transform_totality.2.2.2.2.1 ["// a", "x"] 1 (by decide) (by decide)⟩

end SeparateSnippets

namespace SeparateSnippets

/-- C9 counterexample: on `./auth/index.js` the engine's slug is
`auth/index` — the path separator is kept, it is not converted to the
separator character; the slug the claim describes (extension stripped,
every separator and dot converted) is `--auth-index`, which differs. -/
theorem C9_counterexample :
    fileSlugOf "./auth/index.js" = "auth/index"
    ∧ specFileSlug "./auth/index.js" = "--auth-index"
    ∧ fileSlugOf "./auth/index.js" ≠ specFileSlug "./auth/index.js"
    ∧ '/' ∈ (fileSlugOf "./auth/index.js").toList := by
  refine ⟨rfl, rfl, ?_, by decide⟩
  decide

/-- C9 (amended): the emitted output path is
`./snippets/<fileSlug>/<regionName>.js`, where the slug is the source
path with the first occurrence of `.js` removed, then the first
occurrence of `./` removed, then every remaining dot converted to `-`;
path separators are preserved (giving nested directories), and the
emitted extension is always `.js`.  The base name is the region's
unsuffixed name. -/
theorem C9_output_path :
    (∀ filePath snippetName : String,
      newFilePathOf filePath snippetName =
        "./snippets" ++ "/" ++ fileSlugOf filePath ++ "/" ++ (snippetName ++ ".js"))
    ∧ fileSlugOf "./auth/index.js" = "auth/index"
    ∧ fileSlugOf "./app.config.js" = "app-config"
    ∧ newFilePathOf "./auth/index.js" "greet" = "./snippets/auth/index/greet.js" := by
  refine ⟨?_, rfl, rfl, rfl⟩
  intro p n
  rfl

/-- C10: on a line matching both the Start and the End pattern, the
collector takes only the Start branch (new region created and opened
for the Start name; the End name is neither validated against the open
list nor closed, and the line is not appended to the End-named region),
and the tag-suffixing step rewrites only the Start tag.  Concretely,
`[START a] [END b]` with nothing open creates and opens only `a` with no
error, and is rewritten to `[START a_m] [END b]`. -/
theorem C10_start_wins (line a b : String) (rest : List String)
    (m : List (String × List String)) (opens : List String) (sfx : String)
    (h1 : startMatch line = some a) (h2 : endMatch line = some b) :
    (collectLoop (line :: rest) m opens =
      if (m.lookup a).isSome then .error (.duplicateSnippetName a)
      else collectLoop rest (m ++ [(a, [line])]) (opens ++ [a]))
    ∧ (∃ l2, rewriteStartTag line sfx = some l2 ∧ suffixOneLine line sfx = l2)
    ∧ collectLoop ["[START a] [END b]"] [] [] =
        .ok ([("a", ["[START a] [END b]"])], ["a"])
    ∧ addSuffixToSnippetNames ["[START a] [END b]"] "_m" = ["[START a_m] [END b]"] := by
  refine ⟨?_, ?_, rfl, rfl⟩
  · simp only [collectLoop, h1]
  · obtain ⟨r, hr, _⟩ := Option.map_eq_some'.mp h1
    have hrw : rewriteStartTag line sfx =
        some (String.mk (r.1 ++ ("[START ".toList ++ (r.2.1 ++ (sfx.toList ++ (']' :: r.2.2)))))) := by
      have hr2 : findMarker startKw nameChar true line.data = some r := hr
      simp [rewriteStartTag, hr2]
    exact ⟨_, hrw, by simp [suffixOneLine, hrw]⟩

/-- C10 witness: `[START a] [END b]` matches both patterns; the Start
branch runs (region `a` created and opened, `b` untouched and not
validated). -/
theorem C10_witness :
    startMatch "[START a] [END b]" = some "a"
    ∧ endMatch "[START a] [END b]" = some "b"
    ∧ collectLoop ["[START a] [END b]"] [] [] =
        .ok ([("a", ["[START a] [END b]"])], ["a"])
    ∧ suffixOneLine "[START a] [END b]" "_m" = "[START a_m] [END b]" := by
  refine ⟨by decide, by decide, ?_, ?_⟩
  · rw [(C10_start_wins "[START a] [END b]" "a" "b" [] [] [] "_m"
      (by decide) (by decide)).1]
    rfl
  · obtain ⟨l2, hl2, hone⟩ := (C10_start_wins "[START a] [END b]" "a" "b" [] [] [] "_m"
      (by decide) (by decide)).2.1
    rw [hone]
    have : some l2 = some "[START a_m] [END b]" := by rw [← hl2]; decide
    exact Option.some_inj.mp this

end SeparateSnippets
